import Mathlib

/-!
Verification development for the soundcharts client request engine
(`src/soundcharts/api_util.py`).  The two core components are embedded as
executable Lean functions:

* the Single-Request Executor `request_wrapper_async` — query-parameter
  filtering (`filterParams`), HTTP-method resolution (`methodName`) and the
  retry loop (`requestLoop`, which consumes a script of responses and
  returns the outcome together with the trace of back-off sleeps);
* the Paginating Collector `request_looper_async` — limit/offset
  normalisation, the first-page fetch, the fan-out offsets computation and
  the arrival-order merge loop (`mergeLoop`), parameterised by a server
  oracle `server : Int → Option Int → TaskOutcome` giving the response of
  one page request at a given offset and limit parameter, and by the
  arrival order of the concurrent page tasks.
-/

/-! ## Query-parameter values (api_util.py lines 100-109) -/

/-- A query-parameter value as the Python code sees it: `None`, a boolean,
an integer, a string or a list. -/
inductive PValue where
  | null
  | bool (b : Bool)
  | int (n : Int)
  | str (s : String)
  | list (xs : List Int)
deriving DecidableEq, Repr

/-- Python truthiness test used by `if not v: continue` (line 104):
`None`, `False`, `0`, `""` and `[]` are falsy. -/
def pyFalsy : PValue → Bool
  | .null => true
  | .bool b => !b
  | .int n => decide (n = 0)
  | .str s => s.isEmpty
  | .list xs => xs.isEmpty

/-- The parameter-preparation loop of `request_wrapper_async`
(lines 103-109): skip falsy values, stringify booleans, keep the rest. -/
def filterParams : List (String × PValue) → List (String × PValue)
  | [] => []
  | (k, v) :: rest =>
    if pyFalsy v then filterParams rest
    else
      match v with
      | .bool b => (k, .str (if b then "true" else "false")) :: filterParams rest
      | _ => (k, v) :: filterParams rest

/-! ## HTTP method resolution (api_util.py lines 114-119) -/

/-- Outcome of resolving the request method: either a method name or the
`ValueError` raised for an unsupported override. -/
inductive MethodChoice where
  | name (m : String)
  | configError
deriving DecidableEq, Repr

/-- Python `str.lower()`, computed on the character list. -/
def pyLower (s : String) : String :=
  String.mk (s.toList.map Char.toLower)

/-- Method resolution of `request_wrapper_async` (lines 114-119): with no
override, POST when a body is present, else GET; an explicit override is
accepted only when it lowercases to `delete`. -/
def methodName (method : Option String) (hasBody : Bool) : MethodChoice :=
  match method with
  | none => .name (if hasBody then "POST" else "GET")
  | some m => if pyLower m = "delete" then .name "DELETE" else .configError

/-! ## The Executor retry loop (api_util.py lines 129-252) -/

/-- Substring test, modelling Python `pat in s`, computed on the
character lists. -/
def containsSub (s pat : String) : Bool :=
  (List.range (s.toList.length + 1)).any fun i =>
    pat.toList.isPrefixOf (s.toList.drop i)

/-- Executor configuration relevant to the retry loop: the retry budget,
the fixed retry delay and the exception-raising severity threshold. -/
structure ExecConfig where
  maxRetries : Nat
  retryDelay : Nat
  exceptionLogLevel : Nat
deriving DecidableEq, Repr

/-- One response of the remote server, after message extraction
(lines 150-176): the HTTP status, the extracted error message, the
optional `x-ratelimit-reset` header and the decoded body; or a
network-level failure (`aiohttp.ClientError` / `asyncio.TimeoutError`). -/
inductive Resp where
  | http (status : Nat) (message : String) (ratelimitReset : Option Nat)
      (body : Option String)
  | netError
deriving DecidableEq, Repr

/-- Classification of a raised `RuntimeError` by the code site raising it. -/
inductive RaisedKind where
  | notFound
  | authOrQuota
  | unknownStatus
  | networkExhausted
  | finalError
deriving DecidableEq, Repr

/-- Result of one `request_wrapper_async` call: a returned value (the
decoded body, or `none` for a suppressed `return None`) or a raised
failure. -/
inductive Outcome where
  | value (v : Option String)
  | raised (k : RaisedKind)
deriving DecidableEq, Repr

/-- `logging.WARNING` in the Python standard library. -/
def loggingWARNING : Nat := 30

/-- `logging.ERROR` in the Python standard library. -/
def loggingERROR : Nat := 40

/-- The rate-limit marker searched for in 429 error messages (line 208). -/
def rateLimitMarker : String := "maximum request count"

/-- The block after the retry loop (lines 245-252): raise the final
`RuntimeError` when ERROR reaches the exception threshold, else return
`None`. -/
def finalOutcome (cfg : ExecConfig) : Outcome :=
  if cfg.exceptionLogLevel ≤ loggingERROR then .raised .finalError
  else .value none

/-- The retry loop of `request_wrapper_async` (lines 132-252), driven by a
script of responses, one per attempt; `attempt` is the 1-based counter of
the `for attempt in range(1, attempts + 1)` loop and `attempts` is
`max_retries + 1`.  Returns the outcome and the list of back-off sleep
durations performed.  An exhausted script corresponds to the loop running
off its range and reaching the final block. -/
def requestLoop (cfg : ExecConfig) (attempts : Nat) :
    List Resp → Nat → Outcome × List Nat
  | [], _ => (finalOutcome cfg, [])
  | resp :: rest, attempt =>
    match resp with
    | .netError =>
      if attempts ≤ attempt then (.raised .networkExhausted, [])
      else
        let r := requestLoop cfg attempts rest (attempt + 1)
        (r.1, cfg.retryDelay :: r.2)
    | .http status message reset body =>
      if status = 200 then (.value body, [])
      else if status = 404 then
        if cfg.exceptionLogLevel ≤ loggingWARNING then (.raised .notFound, [])
        else (.value none, [])
      else if status = 502 ∨ status = 503 ∨ status = 504 then
        if attempts ≤ attempt then (finalOutcome cfg, [])
        else
          let r := requestLoop cfg attempts rest (attempt + 1)
          (r.1, cfg.retryDelay :: r.2)
      else if status = 429 ∨ status = 403 ∨ status = 401 then
        if status = 429 ∧ containsSub message rateLimitMarker = true then
          if attempts ≤ attempt then (finalOutcome cfg, [])
          else
            let r := requestLoop cfg attempts rest (attempt + 1)
            (r.1, (reset.getD 0 + 1) :: r.2)
        else
          if cfg.exceptionLogLevel ≤ loggingERROR then (.raised .authOrQuota, [])
          else (.value none, [])
      else
        if cfg.exceptionLogLevel ≤ loggingERROR then (.raised .unknownStatus, [])
        else requestLoop cfg attempts rest (attempt + 1)

/-! ## Paginating Collector data model (api_util.py lines 259-424) -/

/-- The `page` dictionary of a paginated response, restricted to the four
keys the looper reads or writes.  A `none` field models an absent key;
`next` is nullable, so its present value is itself an `Option`. -/
structure PageDict where
  total : Option Int := none
  offset : Option Int := none
  plimit : Option Int := none
  next : Option (Option Int) := none
deriving DecidableEq, Repr

/-- Python truthiness of a `page` dictionary: truthy iff non-empty. -/
def PageDict.truthy (p : PageDict) : Bool :=
  p.total.isSome || p.offset.isSome || p.plimit.isSome || p.next.isSome

/-- Value returned by one `request_wrapper_async` call as the looper sees
it: `none` models a falsy result (`None`), `noItems` a result lacking the
`items` key, and `page` a paginated envelope with its item list (items are
modelled as integers) and optional `page` block. -/
inductive RespBody where
  | none
  | noItems
  | page (items : List Int) (pageBlock : Option PageDict)
deriving DecidableEq, Repr

/-- Outcome of awaiting one page task: a returned value, or a raised
exception. -/
inductive TaskOutcome where
  | ok (r : RespBody)
  | exn
deriving DecidableEq, Repr

/-- Python slice `xs[:n]`: for `n ≥ 0` take the first `n` elements, for
negative `n` drop the last `-n`. -/
def pySliceTo (xs : List Int) (n : Int) : List Int :=
  if 0 ≤ n then xs.take n.toNat
  else xs.take ((xs.length : Int) + n).toNat

/-- Fuel-driven body of `intRange`; the fuel is an upper bound on the
number of iterations. -/
def intRangeAux (step : Int) : Nat → Int → Int → List Int
  | 0, _, _ => []
  | fuel + 1, start, stop =>
    if start < stop then start :: intRangeAux step fuel (start + step) stop
    else []

/-- Python `range(start, stop, step)` for a positive step (the looper only
ever calls it with the positive `page_size` as step; the guard makes the
function total). -/
def intRange (start stop step : Int) : List Int :=
  if 1 ≤ step then intRangeAux step (stop - start).toNat start stop else []

/-- Normalised `limit` query parameter: `params["limit"] = min(limit, 100)`
(line 280), absent when the caller supplied no limit. -/
def normLimitParam (rawLimit : Option Int) : Option Int :=
  rawLimit.map fun l => min l 100

/-- `page_size = params.get("limit", 100)` (line 329). -/
def pageSizeOf (rawLimit : Option Int) : Int :=
  (normLimitParam rawLimit).getD 100

/-- `total_server = first_page.get("total", len(items))` (line 304). -/
def totalServerOf (firstPage : PageDict) (items0 : List Int) : Int :=
  firstPage.total.getD (items0.length : Int)

/-- `total_effective = min(total_server, limit) if limit is not None else
total_server` (lines 305-307). -/
def totalEffective (rawLimit : Option Int) (totalServer : Int) : Int :=
  match rawLimit with
  | some l => min totalServer l
  | none => totalServer

/-- `fetched_all = (limit is None) or (limit >= total_server)`
(line 313). -/
def fetchedAllOf (rawLimit : Option Int) (totalServer : Int) : Bool :=
  match rawLimit with
  | some l => decide (totalServer ≤ l)
  | none => true

/-- `items[:limit] if limit is not None else items` (lines 316-317,
332-333, 408-409). -/
def sliceToLimit (rawLimit : Option Int) (items : List Int) : List Int :=
  match rawLimit with
  | some l => pySliceTo items l
  | none => items

/-- `if fetched_all: results["page"]["next"] = None` (lines 324-325,
338-339, 417-419). -/
def withNext (fa : Bool) (pd : PageDict) : PageDict :=
  if fa then { pd with next := some Option.none } else pd

/-- The two early-return envelopes (lines 315-327 and 331-341): truncate
the first page's items to the caller limit and rebuild the page block from
the first page with the true total (and a null `next` when the fetch
covered the whole collection). -/
def firstPageReturn (rawLimit : Option Int) (firstPage : PageDict)
    (totalServer : Int) (fa : Bool) (items0 : List Int) : RespBody :=
  .page (sliceToLimit rawLimit items0)
    (some (withNext fa { firstPage with total := some totalServer }))

/-- `results["page"].setdefault("offset", last_page_offset)` and
`…setdefault("limit", page_size)` (lines 421-422). -/
def setdefaultOffLim (pd : PageDict) (lastOff pageSize : Int) : PageDict :=
  { pd with offset := some (pd.offset.getD lastOff),
            plimit := some (pd.plimit.getD pageSize) }

/-- The final envelope of the fan-out path (lines 408-424), built from the
merge loop's accumulated items and last-page bookkeeping. -/
def fanoutReturn (rawLimit : Option Int) (pageSize totalServer : Int)
    (fa : Bool) (merged : List Int × Int × PageDict) : RespBody :=
  .page (sliceToLimit rawLimit merged.1)
    (some (setdefaultOffLim
      (withNext fa
        { (if merged.2.2.truthy then merged.2.2 else {}) with
            total := some totalServer })
      merged.2.1 pageSize))

/-- `page_params` built by `fetch_page(off)` (lines 346-348): the offset
of the task and the `limit` query parameter of its page request. -/
def fetch_page_params (pageSize off : Int) : Int × Int :=
  (off, pageSize)

/-- The `as_completed` merge loop (lines 363-400), processing page-task
outcomes in arrival order: a raised task stops the merge (the code cancels
the pending siblings and breaks); a falsy or items-less response is
skipped; otherwise the page's items are appended and the highest-offset
truthy page block is tracked; the loop breaks once the accumulated items
reach the effective total.  Returns the accumulated items, the last page
offset and the last page block. -/
def mergeLoop (server : Int → Option Int → TaskOutcome)
    (pageSize totalEff : Int) :
    List Int → List Int → Int → PageDict → List Int × Int × PageDict
  | [], items, lastOff, lastBlock => (items, lastOff, lastBlock)
  | off :: rest, items, lastOff, lastBlock =>
    match server off (some pageSize) with
    | .exn => (items, lastOff, lastBlock)
    | .ok .none => mergeLoop server pageSize totalEff rest items lastOff lastBlock
    | .ok .noItems => mergeLoop server pageSize totalEff rest items lastOff lastBlock
    | .ok (.page pageItems pageBlockOpt) =>
      let items2 := items ++ pageItems
      let pb := pageBlockOpt.getD {}
      let keep := decide (lastOff ≤ off) && pb.truthy
      let lastOff2 := if keep then off else lastOff
      let lastBlock2 := if keep then pb else lastBlock
      if totalEff ≤ (items2.length : Int) then (items2, lastOff2, lastBlock2)
      else mergeLoop server pageSize totalEff rest items2 lastOff2 lastBlock2

/-- The looper after a successful first page carrying an `items` key
(lines 301-424): short-circuit when the first page already satisfies the
effective total, return early when no further offsets remain, otherwise
merge the fan-out pages (in the given arrival order) and finalize. -/
def looperAfterFirst (server : Int → Option Int → TaskOutcome)
    (rawLimit : Option Int) (offset : Int) (arrival : List Int)
    (items0 : List Int) (firstPage : PageDict) : RespBody :=
  if totalEffective rawLimit (totalServerOf firstPage items0) ≤ (items0.length : Int) then
    firstPageReturn rawLimit firstPage (totalServerOf firstPage items0)
      (fetchedAllOf rawLimit (totalServerOf firstPage items0)) items0
  else if (intRange (offset + pageSizeOf rawLimit)
      (totalEffective rawLimit (totalServerOf firstPage items0))
      (pageSizeOf rawLimit)).isEmpty then
    firstPageReturn rawLimit firstPage (totalServerOf firstPage items0)
      (fetchedAllOf rawLimit (totalServerOf firstPage items0)) items0
  else
    fanoutReturn rawLimit (pageSizeOf rawLimit) (totalServerOf firstPage items0)
      (fetchedAllOf rawLimit (totalServerOf firstPage items0))
      (mergeLoop server (pageSizeOf rawLimit)
        (totalEffective rawLimit (totalServerOf firstPage items0))
        arrival items0 offset firstPage)

/-- `request_looper_async` (lines 259-424), parameterised by the server
oracle, the caller's raw `limit` and `offset` parameters, and the arrival
order of the fan-out page tasks.  The first page is requested at the
clamped offset with the normalised limit; a raised first request
propagates (`Except.error`), a falsy or items-less first response is
returned unmodified. -/
def request_looper_async (server : Int → Option Int → TaskOutcome)
    (rawLimit rawOffset : Option Int) (arrival : List Int) :
    Except Unit RespBody :=
  match server (max (rawOffset.getD 0) 0) (normLimitParam rawLimit) with
  | .exn => .error ()
  | .ok .none => .ok .none
  | .ok .noItems => .ok .noItems
  | .ok (.page items0 firstPageOpt) =>
    .ok (looperAfterFirst server rawLimit (rawOffset.getD 0) arrival items0
      (firstPageOpt.getD {}))

/-- The fan-out page requests dispatched by `request_looper_async`
(lines 343-360): one `(offset, limit)` pair per extra offset, empty when
the call never reaches the fan-out. -/
def fanoutRequests (server : Int → Option Int → TaskOutcome)
    (rawLimit rawOffset : Option Int) : List (Int × Int) :=
  match server (max (rawOffset.getD 0) 0) (normLimitParam rawLimit) with
  | .exn => []
  | .ok .none => []
  | .ok .noItems => []
  | .ok (.page items0 firstPageOpt) =>
    if totalEffective rawLimit (totalServerOf (firstPageOpt.getD {}) items0)
        ≤ (items0.length : Int) then []
    else
      (intRange ((rawOffset.getD 0) + pageSizeOf rawLimit)
        (totalEffective rawLimit (totalServerOf (firstPageOpt.getD {}) items0))
        (pageSizeOf rawLimit)).map
        (fetch_page_params (pageSizeOf rawLimit))

/-! ## Result extractors and concrete servers -/

/-- Items of a result envelope (empty for non-envelope results). -/
def bodyItems : RespBody → List Int
  | .page its _ => its
  | _ => []

/-- Items of a looper result. -/
def resultItems : Except Unit RespBody → List Int
  | .ok b => bodyItems b
  | .error _ => []

/-- The `total` field of the result's page block, when present. -/
def pageTotalOf : Except Unit RespBody → Option Int
  | .ok (.page _ (some pd)) => pd.total
  | _ => Option.none

/-- The `next` field of the result's page block, when present. -/
def pageNextOf : Except Unit RespBody → Option (Option Int)
  | .ok (.page _ (some pd)) => pd.next
  | _ => Option.none

/-- Whether the looper returned normally (no propagated exception). -/
def exceptOk : Except Unit RespBody → Bool
  | .ok _ => true
  | .error _ => false

/-- A well-behaved remote collection of `T` items with default page size
100: the page at offset `off` with limit parameter `lim` holds exactly
`min (lim or 100) (T - off)` items (clamped at 0) and reports the
consistent total `T`, a full page block and a cursor. -/
def wellBehaved (T : Nat) : Int → Option Int → TaskOutcome :=
  fun off lim =>
    .ok (.page
      ((List.range (min (lim.getD 100) ((T : Int) - off)).toNat).map
        fun i => off + Int.ofNat i)
      (some { total := some (T : Int), offset := some off,
              plimit := some (lim.getD 100),
              next := some (some (off + lim.getD 100)) }))

/-- A server of 350 items whose page task at offset 200 raises after
exhausting its retries, as in the partial-failure scenario. -/
def serverC3 : Int → Option Int → TaskOutcome :=
  fun off lim => if off = 200 then .exn else wellBehaved 350 off lim

/-- A misbehaving server whose first page returns two items while
reporting a total of 1. -/
def overfullServer : Int → Option Int → TaskOutcome :=
  fun _ _ => .ok (.page [7, 8] (some { total := some 1 }))

/-- The extra fan-out offsets of a `request_looper_async` call against
`wellBehaved T` with raw limit `rawLimit` and (non-negative) raw offset
`o0`. -/
def wbExtraOffsets (T : Nat) (rawLimit : Option Int) (o0 : Int) : List Int :=
  intRange (o0 + pageSizeOf rawLimit) (totalEffective rawLimit (T : Int))
    (pageSizeOf rawLimit)

/-! ## Helper lemmas about ranges, slices and sums -/

theorem intRangeAux_eq_of_le (step : Int) (hs : 1 ≤ step) :
    ∀ (fuel fuel' : Nat) (start stop : Int),
      (stop - start).toNat ≤ fuel → (stop - start).toNat ≤ fuel' →
      intRangeAux step fuel start stop = intRangeAux step fuel' start stop := by
  intro fuel
  induction fuel with
  | zero =>
    intro fuel' start stop h h'
    cases fuel' with
    | zero => rfl
    | succ f' =>
      simp only [intRangeAux]
      rw [if_neg (by omega)]
  | succ f ih =>
    intro fuel' start stop h h'
    cases fuel' with
    | zero =>
      simp only [intRangeAux]
      rw [if_neg (by omega)]
    | succ f' =>
      simp only [intRangeAux]
      by_cases hlt : start < stop
      · rw [if_pos hlt, if_pos hlt, ih f' (start + step) stop (by omega) (by omega)]
      · rw [if_neg hlt, if_neg hlt]

theorem intRange_unfold (start stop step : Int) (hs : 1 ≤ step) :
    intRange start stop step =
      if start < stop then start :: intRange (start + step) stop step else [] := by
  unfold intRange
  rw [if_pos hs, if_pos hs]
  by_cases hlt : start < stop
  · rw [if_pos hlt]
    have h1 : (stop - start).toNat = ((stop - start).toNat - 1) + 1 := by omega
    rw [h1]
    simp only [intRangeAux]
    rw [if_pos hlt]
    rw [intRangeAux_eq_of_le step hs ((stop - start).toNat - 1)
      ((stop - (start + step)).toNat) (start + step) stop (by omega) (by omega)]
  · rw [if_neg hlt]
    have h0 : (stop - start).toNat = 0 := by omega
    rw [h0]
    rfl

theorem intRange_eq_nil (start stop step : Int) (hs : 1 ≤ step)
    (h : stop ≤ start) : intRange start stop step = [] := by
  rw [intRange_unfold start stop step hs, if_neg (by omega)]

theorem intRange_ne_nil (start stop step : Int) (hs : 1 ≤ step)
    (h : start < stop) : intRange start stop step ≠ [] := by
  rw [intRange_unfold start stop step hs, if_pos h]
  simp

theorem pySliceTo_length (xs : List Int) (n : Int) (hn : 0 ≤ n) :
    (pySliceTo xs n).length = min xs.length n.toNat := by
  unfold pySliceTo
  rw [if_pos hn, List.length_take]
  omega

theorem pySliceTo_length_le (xs : List Int) (n : Int) :
    (pySliceTo xs n).length ≤ xs.length := by
  unfold pySliceTo
  by_cases hn : 0 ≤ n
  · rw [if_pos hn, List.length_take]; omega
  · rw [if_neg hn, List.length_take]; omega

theorem sliceToLimit_length_le (rawLimit : Option Int) (xs : List Int) :
    (sliceToLimit rawLimit xs).length ≤ xs.length := by
  cases rawLimit with
  | none => simp [sliceToLimit]
  | some l => simpa [sliceToLimit] using pySliceTo_length_le xs l

/-- Sum of page counts over a full range up to the total: the range
telescopes exactly to the remaining item count. -/
theorem sum_min_exact (T step : Int) (hs : 1 ≤ step) :
    ∀ (n : Nat) (start : Int), (T - start).toNat = n →
      ((intRange start T step).map fun off => (min step (T - off)).toNat).sum
        = (T - start).toNat := by
  intro n
  induction n using Nat.strong_induction_on with
  | _ n ih =>
    intro start hn
    rw [intRange_unfold start T step hs]
    by_cases hlt : start < T
    · rw [if_pos hlt]
      simp only [List.map_cons, List.sum_cons]
      rw [ih ((T - (start + step)).toNat) (by omega) (start + step) rfl]
      rcases le_total step (T - start) with h1 | h1
      · rw [min_eq_left h1]; omega
      · rw [min_eq_right h1]; omega
    · rw [if_neg hlt]
      simp only [List.map_nil, List.sum_nil]
      omega

/-- Sum of page counts over a range bounded by the effective total `E`:
at least the item count remaining before `E`, provided `E ≤ T`. -/
theorem sum_min_ge (T E step : Int) (hs : 1 ≤ step) (hET : E ≤ T) :
    ∀ (n : Nat) (start : Int), (E - start).toNat = n →
      (E - start).toNat ≤
        ((intRange start E step).map fun off => (min step (T - off)).toNat).sum := by
  intro n
  induction n using Nat.strong_induction_on with
  | _ n ih =>
    intro start hn
    rw [intRange_unfold start E step hs]
    by_cases hlt : start < E
    · rw [if_pos hlt]
      simp only [List.map_cons, List.sum_cons]
      have h2 := ih ((E - (start + step)).toNat) (by omega) (start + step) rfl
      rcases le_total step (T - start) with h1 | h1
      · rw [min_eq_left h1]; omega
      · rw [min_eq_right h1]; omega
    · rw [if_neg hlt]
      simp only [List.map_nil, List.sum_nil]
      omega

/-- Sum of page counts over a range bounded by `E ≤ T`: at most the item
count remaining before `T`. -/
theorem sum_min_le (T E step : Int) (hs : 1 ≤ step) (hET : E ≤ T) :
    ∀ (n : Nat) (start : Int), (E - start).toNat = n →
      ((intRange start E step).map fun off => (min step (T - off)).toNat).sum
        ≤ (T - start).toNat := by
  intro n
  induction n using Nat.strong_induction_on with
  | _ n ih =>
    intro start hn
    rw [intRange_unfold start E step hs]
    by_cases hlt : start < E
    · rw [if_pos hlt]
      simp only [List.map_cons, List.sum_cons]
      have h2 := ih ((E - (start + step)).toNat) (by omega) (start + step) rfl
      rcases le_total step (T - start) with h1 | h1
      · rw [min_eq_left h1]; omega
      · rw [min_eq_right h1]; omega
    · rw [if_neg hlt]
      simp only [List.map_nil, List.sum_nil]
      omega

/-! ## Merge-loop lemmas -/

/-- Number of items a `wellBehaved T` page at offset `off` holds when
requested with limit parameter `ps`. -/
def wbCnt (T : Nat) (ps off : Int) : Nat :=
  (min ps ((T : Int) - off)).toNat

theorem wellBehaved_items_length (T : Nat) (ps off : Int) :
    (((List.range (min ps ((T : Int) - off)).toNat).map
      fun i => off + Int.ofNat i).length) = wbCnt T ps off := by
  rw [List.length_map, List.length_range]
  rfl

/-- The accumulated items of the merge loop do not depend on the last-page
bookkeeping accumulators. -/
theorem mergeLoop_items_indep (server : Int → Option Int → TaskOutcome)
    (ps te : Int) :
    ∀ (arrival items : List Int) (lastOff lastOff' : Int)
      (lastBlock lastBlock' : PageDict),
      (mergeLoop server ps te arrival items lastOff lastBlock).1
        = (mergeLoop server ps te arrival items lastOff' lastBlock').1 := by
  intro arrival
  induction arrival with
  | nil => intro items lastOff lastOff' lastBlock lastBlock'; rfl
  | cons off rest ih =>
    intro items lastOff lastOff' lastBlock lastBlock'
    simp only [mergeLoop]
    cases hso : server off (some ps) with
    | exn => rfl
    | ok r =>
      cases r with
      | none => exact ih items lastOff lastOff' lastBlock lastBlock'
      | noItems => exact ih items lastOff lastOff' lastBlock lastBlock'
      | page pageItems pageBlockOpt =>
        simp only
        split
        · rfl
        · exact ih _ _ _ _ _

/-- Exact item count of the merge loop against `wellBehaved T`, when the
total of all pages stays within the effective total (so any break can only
happen at the last arrival). -/
theorem mergeLoop_wb_length (T : Nat) (ps te : Int) :
    ∀ (arrival items : List Int) (lastOff : Int) (lastBlock : PageDict),
      (items.length : Int) + ((arrival.map (wbCnt T ps)).sum : Nat) ≤ te →
      (mergeLoop (wellBehaved T) ps te arrival items lastOff lastBlock).1.length
        = items.length + (arrival.map (wbCnt T ps)).sum := by
  intro arrival
  induction arrival with
  | nil =>
    intro items lastOff lastBlock _
    simp [mergeLoop]
  | cons off rest ih =>
    intro items lastOff lastBlock h
    simp only [List.map_cons, List.sum_cons] at h ⊢
    generalize hS : (List.map (wbCnt T ps) rest).sum = S at h ⊢
    simp only [mergeLoop, wellBehaved, Option.getD_some]
    split
    · rename_i hbreak
      rw [List.length_append, wellBehaved_items_length] at hbreak ⊢
      push_cast at h hbreak
      omega
    · rename_i hbreak
      rw [mergeLoop_items_indep (wellBehaved T) ps te rest _ _ lastOff _ lastBlock]
      rw [ih _ lastOff lastBlock]
      · rw [List.length_append, wellBehaved_items_length]
        omega
      · rw [hS, List.length_append, wellBehaved_items_length]
        push_cast at h ⊢
        omega

/-- Lower bound on the merge loop's item count against `wellBehaved T`:
the merge gathers at least the effective total, or else everything the
arrived pages held. -/
theorem mergeLoop_wb_length_ge (T : Nat) (ps te : Int) :
    ∀ (arrival items : List Int) (lastOff : Int) (lastBlock : PageDict),
      min te ((items.length : Int) + ((arrival.map (wbCnt T ps)).sum : Nat)) ≤
        ((mergeLoop (wellBehaved T) ps te arrival items lastOff lastBlock).1.length : Int) := by
  intro arrival
  induction arrival with
  | nil =>
    intro items lastOff lastBlock
    simp only [mergeLoop, List.map_nil, List.sum_nil, Nat.cast_zero, add_zero]
    omega
  | cons off rest ih =>
    intro items lastOff lastBlock
    simp only [List.map_cons, List.sum_cons]
    generalize hS : (List.map (wbCnt T ps) rest).sum = S
    simp only [mergeLoop, wellBehaved, Option.getD_some]
    split
    · rename_i hbreak
      rw [List.length_append, wellBehaved_items_length] at hbreak ⊢
      push_cast at hbreak ⊢
      omega
    · rename_i hbreak
      rw [mergeLoop_items_indep (wellBehaved T) ps te rest _ _ lastOff _ lastBlock]
      have h2 := ih (items ++ (List.range (min ps ((T : Int) - off)).toNat).map
        (fun i => off + Int.ofNat i)) lastOff lastBlock
      rw [hS, List.length_append, wellBehaved_items_length] at h2
      push_cast at h2 ⊢
      omega

/-- Upper bound on the merge loop's item count: never more than the
initial items plus everything the arrived pages held. -/
theorem mergeLoop_wb_length_le (T : Nat) (ps te : Int) :
    ∀ (arrival items : List Int) (lastOff : Int) (lastBlock : PageDict),
      (mergeLoop (wellBehaved T) ps te arrival items lastOff lastBlock).1.length
        ≤ items.length + (arrival.map (wbCnt T ps)).sum := by
  intro arrival
  induction arrival with
  | nil =>
    intro items lastOff lastBlock
    simp [mergeLoop]
  | cons off rest ih =>
    intro items lastOff lastBlock
    simp only [List.map_cons, List.sum_cons]
    generalize hS : (List.map (wbCnt T ps) rest).sum = S
    simp only [mergeLoop, wellBehaved, Option.getD_some]
    split
    · rw [List.length_append, wellBehaved_items_length]
      omega
    · rw [mergeLoop_items_indep (wellBehaved T) ps te rest _ _ lastOff _ lastBlock]
      have h2 := ih (items ++ (List.range (min ps ((T : Int) - off)).toNat).map
        (fun i => off + Int.ofNat i)) lastOff lastBlock
      rw [hS, List.length_append, wellBehaved_items_length] at h2
      omega

/-- A raised page task stops the merge: the arrivals after the failing
task contribute nothing, exactly as if the loop had ended at the
failure. -/
theorem mergeLoop_exn_stop (server : Int → Option Int → TaskOutcome)
    (ps te : Int) (offE : Int) (a2 : List Int)
    (hexn : server offE (some ps) = .exn) :
    ∀ (a1 items : List Int) (lastOff : Int) (lastBlock : PageDict),
      mergeLoop server ps te (a1 ++ offE :: a2) items lastOff lastBlock
        = mergeLoop server ps te a1 items lastOff lastBlock := by
  intro a1
  induction a1 with
  | nil =>
    intro items lastOff lastBlock
    simp only [List.nil_append, mergeLoop, hexn]
  | cons off rest ih =>
    intro items lastOff lastBlock
    simp only [List.cons_append, mergeLoop]
    cases hso : server off (some ps) with
    | exn => rfl
    | ok r =>
      cases r with
      | none => exact ih items lastOff lastBlock
      | noItems => exact ih items lastOff lastBlock
      | page pageItems pageBlockOpt =>
        simp only
        split
        · rfl
        · exact ih _ _ _

/-! ## Looper characterisation against the well-behaved server -/

theorem wbCnt_def (T : Nat) (ps : Int) :
    wbCnt T ps = fun off => (min ps ((T : Int) - off)).toNat := rfl

theorem looper_wb_noLimit (T : Nat) (o0 : Int) (h0 : 0 ≤ o0)
    (arrival : List Int)
    (hperm : arrival.Perm (wbExtraOffsets T Option.none o0)) :
    (resultItems (request_looper_async (wellBehaved T) Option.none (some o0) arrival)).length
        = ((T : Int) - o0).toNat ∧
    pageTotalOf (request_looper_async (wellBehaved T) Option.none (some o0) arrival)
        = some (T : Int) ∧
    pageNextOf (request_looper_async (wellBehaved T) Option.none (some o0) arrival)
        = some Option.none := by
  have hext : wbExtraOffsets T Option.none o0 = intRange (o0 + 100) (T : Int) 100 := rfl
  have hsum : ((arrival.map (wbCnt T 100)).sum : Nat)
      = ((T : Int) - (o0 + 100)).toNat := by
    rw [(hperm.map (wbCnt T 100)).sum_eq, hext, wbCnt_def]
    exact sum_min_exact (T : Int) 100 (by norm_num) _ (o0 + 100) rfl
  unfold request_looper_async
  rw [show (some o0).getD 0 = o0 from rfl, max_eq_left h0]
  simp only [normLimitParam, Option.map_none', wellBehaved, Option.getD_none,
    Option.getD_some]
  unfold looperAfterFirst
  simp only [totalServerOf, totalEffective, fetchedAllOf, pageSizeOf,
    normLimitParam, Option.map_none', Option.getD_none, Option.getD_some]
  by_cases h1 : (T : Int) ≤ ((((List.range (min (100 : Int) ((T : Int) - o0)).toNat).map
      fun i => o0 + Int.ofNat i)).length : Int)
  · rw [if_pos h1]
    rw [wellBehaved_items_length] at h1
    simp only [resultItems, bodyItems, pageTotalOf, pageNextOf, firstPageReturn,
      sliceToLimit, withNext, if_pos]
    refine ⟨?_, trivial, trivial⟩
    rw [wellBehaved_items_length]
    unfold wbCnt at h1 ⊢
    omega
  · rw [if_neg h1]
    rw [wellBehaved_items_length] at h1
    by_cases h2 : (intRange (o0 + 100) (T : Int) 100).isEmpty = true
    · rw [if_pos h2]
      have hno : ¬ (o0 + 100 < (T : Int)) := by
        intro hc
        exact intRange_ne_nil (o0 + 100) (T : Int) 100 (by norm_num) hc
          (List.isEmpty_iff.mp h2)
      simp only [resultItems, bodyItems, pageTotalOf, pageNextOf, firstPageReturn,
        sliceToLimit, withNext, if_pos]
      refine ⟨?_, trivial, trivial⟩
      rw [wellBehaved_items_length]
      unfold wbCnt at h1 ⊢
      omega
    · rw [if_neg h2]
      simp only [resultItems, bodyItems, pageTotalOf, pageNextOf, fanoutReturn,
        sliceToLimit, setdefaultOffLim, withNext, if_pos]
      refine ⟨?_, trivial, trivial⟩
      rw [mergeLoop_wb_length]
      · rw [wellBehaved_items_length, hsum]
        unfold wbCnt at h1 ⊢
        omega
      · rw [hsum, wellBehaved_items_length]
        unfold wbCnt at h1 ⊢
        omega

theorem looper_wb_limit (T : Nat) (L : Int) (h0 : 0 ≤ L) (hLT : L ≤ (T : Int))
    (arrival : List Int)
    (hperm : arrival.Perm (wbExtraOffsets T (some L) 0)) :
    (resultItems (request_looper_async (wellBehaved T) (some L) Option.none arrival)).length
        = L.toNat ∧
    pageTotalOf (request_looper_async (wellBehaved T) (some L) Option.none arrival)
        = some (T : Int) := by
  have hext : wbExtraOffsets T (some L) 0
      = intRange (0 + min L 100) (min (T : Int) L) (min L 100) := rfl
  unfold request_looper_async
  rw [show (Option.none : Option Int).getD 0 = 0 from rfl,
    show max (0 : Int) 0 = 0 from rfl]
  simp only [normLimitParam, Option.map_some', wellBehaved, Option.getD_some]
  unfold looperAfterFirst
  simp only [totalServerOf, totalEffective, fetchedAllOf, pageSizeOf,
    normLimitParam, Option.map_some', Option.getD_some]
  by_cases h1 : min (T : Int) L ≤ ((((List.range (min (min L 100) ((T : Int) - 0)).toNat).map
      fun i => (0 : Int) + Int.ofNat i)).length : Int)
  · rw [if_pos h1]
    rw [wellBehaved_items_length] at h1
    simp only [resultItems, bodyItems, pageTotalOf, firstPageReturn,
      sliceToLimit, withNext]
    constructor
    · rw [pySliceTo_length _ _ h0, wellBehaved_items_length]
      unfold wbCnt at h1 ⊢
      omega
    · split
      · rfl
      · rfl
  · rw [if_neg h1]
    rw [wellBehaved_items_length] at h1
    have hL1 : 1 ≤ L := by
      unfold wbCnt at h1
      omega
    have hps : (1 : Int) ≤ min L 100 := by omega
    by_cases h2 : (intRange (0 + min L 100) (min (T : Int) L) (min L 100)).isEmpty = true
    · exfalso
      have hno : ¬ (0 + min L 100 < min (T : Int) L) := by
        intro hc
        exact intRange_ne_nil (0 + min L 100) (min (T : Int) L) (min L 100) hps hc
          (List.isEmpty_iff.mp h2)
      unfold wbCnt at h1
      omega
    · rw [if_neg h2]
      simp only [resultItems, bodyItems, pageTotalOf, fanoutReturn,
        sliceToLimit, setdefaultOffLim, withNext]
      have hsum : ((min (T : Int) L) - (0 + min L 100)).toNat
          ≤ ((arrival.map (wbCnt T (min L 100))).sum : Nat) := by
        rw [(hperm.map (wbCnt T (min L 100))).sum_eq, hext, wbCnt_def]
        exact sum_min_ge (T : Int) (min (T : Int) L) (min L 100) hps
          (by omega) _ (0 + min L 100) rfl
      have hge := mergeLoop_wb_length_ge T (min L 100) (min (T : Int) L)
        arrival ((List.range (min (min L 100) ((T : Int) - 0)).toNat).map
          fun i => (0 : Int) + Int.ofNat i) 0
        { total := some (T : Int), offset := some 0, plimit := some (min L 100),
          next := some (some (0 + min L 100)) }
      rw [wellBehaved_items_length] at hge
      constructor
      · rw [pySliceTo_length _ _ h0]
        unfold wbCnt at h1 hge hsum
        omega
      · split
        · rfl
        · rfl

/-- The fan-out requests of a no-limit call against the well-behaved
server: one request per arithmetic-progression offset, each with the
default page size 100 as its limit parameter. -/
theorem fanout_wb_noLimit (T : Nat) (o0 : Int) (h0 : 0 ≤ o0) :
    fanoutRequests (wellBehaved T) Option.none (some o0)
      = (intRange (o0 + 100) (T : Int) 100).map (fetch_page_params 100) := by
  unfold fanoutRequests
  rw [show (some o0).getD 0 = o0 from rfl, max_eq_left h0]
  simp only [normLimitParam, Option.map_none', wellBehaved, Option.getD_none,
    Option.getD_some, totalServerOf, totalEffective, pageSizeOf]
  by_cases h1 : (T : Int) ≤ ((((List.range (min (100 : Int) ((T : Int) - o0)).toNat).map
      fun i => o0 + Int.ofNat i)).length : Int)
  · rw [if_pos h1]
    rw [wellBehaved_items_length] at h1
    rw [intRange_eq_nil (o0 + 100) (T : Int) 100 (by norm_num)
      (by unfold wbCnt at h1; omega)]
    rfl
  · rw [if_neg h1]

/-- A call whose caller limit is at most the default page size never fans
out against the well-behaved server: the first page already satisfies the
effective total. -/
theorem fanout_wb_limit_small (T : Nat) (L : Int) (h0 : 0 ≤ L)
    (hLT : L ≤ (T : Int)) (hL : L ≤ 100) :
    fanoutRequests (wellBehaved T) (some L) Option.none = [] := by
  unfold fanoutRequests
  rw [show (Option.none : Option Int).getD 0 = 0 from rfl,
    show max (0 : Int) 0 = 0 from rfl]
  simp only [normLimitParam, Option.map_some', wellBehaved, Option.getD_some,
    totalServerOf, totalEffective, pageSizeOf]
  rw [if_pos]
  rw [wellBehaved_items_length]
  unfold wbCnt
  omega

/-- Every branch of `looperAfterFirst` returns an envelope whose items
are `items[:limit]` of some gathered list, with a present page block. -/
theorem looperAfterFirst_shape (server : Int → Option Int → TaskOutcome)
    (rawLimit : Option Int) (offset : Int) (arrival items0 : List Int)
    (firstPage : PageDict) :
    ∃ (xs : List Int) (pd : PageDict),
      looperAfterFirst server rawLimit offset arrival items0 firstPage
        = RespBody.page (sliceToLimit rawLimit xs) (some pd) := by
  unfold looperAfterFirst
  split
  · exact ⟨items0, _, rfl⟩
  · split
    · exact ⟨items0, _, rfl⟩
    · exact ⟨_, _, rfl⟩

/-- Against any server and any arrival order, a non-negative caller limit
bounds the merged item count: every return path of the looper truncates
with `items[:limit]`. -/
theorem looper_limit_le (server : Int → Option Int → TaskOutcome)
    (rawOffset : Option Int) (arrival : List Int) (L : Int) (h0 : 0 ≤ L) :
    ((resultItems (request_looper_async server (some L) rawOffset arrival)).length : Int)
      ≤ L := by
  unfold request_looper_async
  cases hs : server (max (rawOffset.getD 0) 0) (normLimitParam (some L)) with
  | exn => simpa [resultItems] using h0
  | ok r =>
    cases r with
    | none => simpa [resultItems, bodyItems] using h0
    | noItems => simpa [resultItems, bodyItems] using h0
    | page items0 firstPageOpt =>
      obtain ⟨xs, pd, hshape⟩ := looperAfterFirst_shape server (some L)
        (rawOffset.getD 0) arrival items0 (firstPageOpt.getD {})
      dsimp only
      rw [hshape]
      simp only [resultItems, bodyItems, sliceToLimit]
      rw [pySliceTo_length _ _ h0]
      omega

/-- Against the well-behaved server (from a non-negative offset, with the
fan-out arrivals a permutation of the dispatched offsets), the merged item
count never exceeds the reported total, and the reported total is the
server's. -/
theorem looper_wb_le_total (T : Nat) (rawLimit : Option Int) (o0 : Int)
    (h0 : 0 ≤ o0) (arrival : List Int)
    (hperm : arrival.Perm (wbExtraOffsets T rawLimit o0)) :
    ((resultItems (request_looper_async (wellBehaved T) rawLimit (some o0) arrival)).length : Int)
      ≤ (T : Int) ∧
    pageTotalOf (request_looper_async (wellBehaved T) rawLimit (some o0) arrival)
      = some (T : Int) := by
  cases rawLimit with
  | none =>
    obtain ⟨h1, h2, _⟩ := looper_wb_noLimit T o0 h0 arrival hperm
    refine ⟨?_, h2⟩
    rw [h1]
    omega
  | some L =>
    have hext : wbExtraOffsets T (some L) o0
        = intRange (o0 + min L 100) (min (T : Int) L) (min L 100) := rfl
    unfold request_looper_async
    rw [show (some o0).getD 0 = o0 from rfl, max_eq_left h0]
    simp only [normLimitParam, Option.map_some', wellBehaved, Option.getD_some]
    unfold looperAfterFirst
    simp only [totalServerOf, totalEffective, fetchedAllOf, pageSizeOf,
      normLimitParam, Option.map_some', Option.getD_some]
    by_cases h1 : min (T : Int) L ≤ ((((List.range (min (min L 100) ((T : Int) - o0)).toNat).map
        fun i => o0 + Int.ofNat i)).length : Int)
    · rw [if_pos h1]
      simp only [resultItems, bodyItems, pageTotalOf, firstPageReturn,
        sliceToLimit, withNext]
      constructor
      · calc ((pySliceTo ((List.range (min (min L 100) ((T : Int) - o0)).toNat).map
              fun i => o0 + Int.ofNat i) L).length : Int)
            ≤ _ := by exact_mod_cast Nat.cast_le.mpr (pySliceTo_length_le _ L)
          _ ≤ (T : Int) := by rw [wellBehaved_items_length]; unfold wbCnt; omega
      · split
        · rfl
        · rfl
    · rw [if_neg h1]
      rw [wellBehaved_items_length] at h1
      have hL1 : 1 ≤ L := by
        unfold wbCnt at h1
        omega
      have hps : (1 : Int) ≤ min L 100 := by omega
      by_cases h2 : (intRange (o0 + min L 100) (min (T : Int) L) (min L 100)).isEmpty = true
      · rw [if_pos h2]
        simp only [resultItems, bodyItems, pageTotalOf, firstPageReturn,
          sliceToLimit, withNext]
        constructor
        · calc ((pySliceTo ((List.range (min (min L 100) ((T : Int) - o0)).toNat).map
                fun i => o0 + Int.ofNat i) L).length : Int)
              ≤ _ := by exact_mod_cast Nat.cast_le.mpr (pySliceTo_length_le _ L)
            _ ≤ (T : Int) := by rw [wellBehaved_items_length]; unfold wbCnt; omega
        · split
          · rfl
          · rfl
      · rw [if_neg h2]
        simp only [resultItems, bodyItems, pageTotalOf, fanoutReturn,
          sliceToLimit, setdefaultOffLim, withNext]
        have hsum : ((arrival.map (wbCnt T (min L 100))).sum : Nat)
            ≤ ((T : Int) - (o0 + min L 100)).toNat := by
          rw [(hperm.map (wbCnt T (min L 100))).sum_eq, hext, wbCnt_def]
          exact sum_min_le (T : Int) (min (T : Int) L) (min L 100) hps
            (by omega) _ (o0 + min L 100) rfl
        have hle := mergeLoop_wb_length_le T (min L 100) (min (T : Int) L)
          arrival ((List.range (min (min L 100) ((T : Int) - o0)).toNat).map
            fun i => o0 + Int.ofNat i) o0
          { total := some (T : Int), offset := some o0, plimit := some (min L 100),
            next := some (some (o0 + min L 100)) }
        rw [wellBehaved_items_length] at hle
        constructor
        · have hsl := pySliceTo_length_le
            (mergeLoop (wellBehaved T) (min L 100) (min (T : Int) L)
              arrival ((List.range (min (min L 100) ((T : Int) - o0)).toNat).map
                fun i => o0 + Int.ofNat i) o0
              { total := some (T : Int), offset := some o0, plimit := some (min L 100),
                next := some (some (o0 + min L 100)) }).1 L
          unfold wbCnt at hle hsum
          omega
        · split
          · rfl
          · rfl

/-- A raised page task leaves `looperAfterFirst` exactly where the merge
had got: later arrivals contribute nothing. -/
theorem looperAfterFirst_exn_stop (server : Int → Option Int → TaskOutcome)
    (rawLimit : Option Int) (offset : Int) (a1 a2 : List Int) (offE : Int)
    (items0 : List Int) (firstPage : PageDict)
    (hexn : server offE (some (pageSizeOf rawLimit)) = .exn) :
    looperAfterFirst server rawLimit offset (a1 ++ offE :: a2) items0 firstPage
      = looperAfterFirst server rawLimit offset a1 items0 firstPage := by
  unfold looperAfterFirst
  rw [mergeLoop_exn_stop server (pageSizeOf rawLimit)
    (totalEffective rawLimit (totalServerOf firstPage items0)) offE a2 hexn
    a1 items0 offset firstPage]

/-- A raised page task stops the whole collect: the result equals the one
obtained from the arrivals that completed before the failure, and the
failure is not propagated (the looper still returns a value). -/
theorem looper_exn_stop (server : Int → Option Int → TaskOutcome)
    (rawLimit rawOffset : Option Int) (a1 a2 : List Int) (offE : Int)
    (hexn : server offE (some (pageSizeOf rawLimit)) = .exn) :
    request_looper_async server rawLimit rawOffset (a1 ++ offE :: a2)
      = request_looper_async server rawLimit rawOffset a1 := by
  unfold request_looper_async
  cases hs : server (max (rawOffset.getD 0) 0) (normLimitParam rawLimit) with
  | exn => rfl
  | ok r =>
    cases r with
    | none => rfl
    | noItems => rfl
    | page items0 firstPageOpt =>
      dsimp only
      rw [looperAfterFirst_exn_stop server rawLimit (rawOffset.getD 0) a1 a2 offE
        items0 (firstPageOpt.getD {}) hexn]

/-! ## Claims -/

set_option maxRecDepth 100000

/-- C1 counterexample: a collect call with no caller limit but a first
offset of 100 against the well-behaved 150-item server merges only 50
items while reporting `page.total = 150`, so the merged item count does
not equal the server-reported total. -/
theorem c1_counterexample :
    (resultItems (request_looper_async (wellBehaved 150) Option.none (some 100) [])).length
      = 50 ∧
    pageTotalOf (request_looper_async (wellBehaved 150) Option.none (some 100) [])
      = some 150 ∧
    (50 : Nat) ≠ 150 := by
  refine ⟨by decide, by decide, by decide⟩

/-- C1 (amended): for every collect call with no caller limit against the
well-behaved server of total `T` (pages of exactly
`min (page_size, total - offset)` items, consistent total, no failures),
with a non-negative first offset and any completion order of the fan-out
tasks, the merged item count equals the server total minus the first
offset (hence equals the total when the call's offset is 0 or absent),
the fan-out requests are exactly one per offset of the arithmetic
sequence from `first_offset + page_size` up to (excluding) the total with
step `page_size`, the returned `page.total` equals the server total, and
`page.next` is null. -/
theorem c1_amended (T : Nat) (o0 : Int) (h0 : 0 ≤ o0) (arrival : List Int)
    (hperm : arrival.Perm (wbExtraOffsets T Option.none o0)) :
    (resultItems (request_looper_async (wellBehaved T) Option.none (some o0) arrival)).length
        = ((T : Int) - o0).toNat ∧
    pageTotalOf (request_looper_async (wellBehaved T) Option.none (some o0) arrival)
        = some (T : Int) ∧
    pageNextOf (request_looper_async (wellBehaved T) Option.none (some o0) arrival)
        = some Option.none ∧
    fanoutRequests (wellBehaved T) Option.none (some o0)
        = (intRange (o0 + 100) (T : Int) 100).map (fetch_page_params 100) := by
  obtain ⟨h1, h2, h3⟩ := looper_wb_noLimit T o0 h0 arrival hperm
  exact ⟨h1, h2, h3, fanout_wb_noLimit T o0 h0⟩

/-- C1 witness: Scenario A, total 250, offset 0, fan-out arrivals in
offset order. -/
theorem c1_amended_witness :
    0 ≤ (0 : Int) ∧
    ((resultItems (request_looper_async (wellBehaved 250) Option.none (some 0)
        (wbExtraOffsets 250 Option.none 0))).length
        = (((250 : Nat) : Int) - 0).toNat ∧
      pageTotalOf (request_looper_async (wellBehaved 250) Option.none (some 0)
        (wbExtraOffsets 250 Option.none 0)) = some ((250 : Nat) : Int) ∧
      pageNextOf (request_looper_async (wellBehaved 250) Option.none (some 0)
        (wbExtraOffsets 250 Option.none 0)) = some Option.none ∧
      fanoutRequests (wellBehaved 250) Option.none (some 0)
        = (intRange (0 + 100) ((250 : Nat) : Int) 100).map (fetch_page_params 100)) :=
  ⟨by decide,
   c1_amended 250 0 (by decide) (wbExtraOffsets 250 Option.none 0) (List.Perm.refl _)⟩

/-- C2 counterexample: a collect call with caller limit 200 ≤ total 250
but first offset 100 merges only 100 items, not the caller limit. -/
theorem c2_counterexample :
    (resultItems (request_looper_async (wellBehaved 250) (some 200) (some 100) [])).length
      = 100 ∧
    (100 : Nat) ≠ 200 := by
  refine ⟨by decide, by decide⟩

/-- C2 (amended): for every collect call with caller limit `L ≤ T` and no
(equivalently zero) first offset against the well-behaved server of total
`T`, with any completion order of the fan-out tasks, the merged item
count equals `L`, the returned `page.total` equals `T` (never `L`), and
whenever `L` is at most the page size 100 — so the first page alone
already yields `L` items — no fan-out request is dispatched. -/
theorem c2_amended (T : Nat) (L : Int) (h0 : 0 ≤ L) (hLT : L ≤ (T : Int))
    (arrival : List Int)
    (hperm : arrival.Perm (wbExtraOffsets T (some L) 0)) :
    (resultItems (request_looper_async (wellBehaved T) (some L) Option.none arrival)).length
        = L.toNat ∧
    pageTotalOf (request_looper_async (wellBehaved T) (some L) Option.none arrival)
        = some (T : Int) ∧
    (L ≤ 100 → fanoutRequests (wellBehaved T) (some L) Option.none = []) := by
  obtain ⟨h1, h2⟩ := looper_wb_limit T L h0 hLT arrival hperm
  exact ⟨h1, h2, fun hL => fanout_wb_limit_small T L h0 hLT hL⟩

/-- C2 witness: Scenario B, caller limit 50, server total 500: the call
short-circuits with 50 items and `page.total = 500`. -/
theorem c2_amended_witness :
    0 ≤ (50 : Int) ∧ (50 : Int) ≤ ((500 : Nat) : Int) ∧
    ((resultItems (request_looper_async (wellBehaved 500) (some 50) Option.none
        (wbExtraOffsets 500 (some 50) 0))).length = (50 : Int).toNat ∧
      pageTotalOf (request_looper_async (wellBehaved 500) (some 50) Option.none
        (wbExtraOffsets 500 (some 50) 0)) = some ((500 : Nat) : Int) ∧
      ((50 : Int) ≤ 100 → fanoutRequests (wellBehaved 500) (some 50) Option.none = [])) :=
  ⟨by decide, by decide,
   c2_amended 500 50 (by decide) (by decide) (wbExtraOffsets 500 (some 50) 0)
     (List.Perm.refl _)⟩

/-- C3 counterexample: against a 350-item server whose page task at
offset 200 raises (of three fan-out tasks at offsets 100, 200, 300), the
collect call returns normally — `exceptOk` is `true` — with the 200 items
gathered before the failure, instead of propagating the failure to the
caller. -/
theorem c3_counterexample :
    exceptOk (request_looper_async serverC3 Option.none Option.none [100, 200, 300])
      = true ∧
    (resultItems (request_looper_async serverC3 Option.none Option.none [100, 200, 300])).length
      = 200 := by
  refine ⟨by decide, by decide⟩

/-- C3 (amended): if a fan-out page task raises, the merge stops there:
the result of collect equals the result obtained from only the tasks that
completed before the failure (later completions contribute nothing, as
the pending tasks are cancelled), the items of the earlier completions
are kept, and the failure is not propagated — collect returns this
partial result normally. -/
theorem c3_amended (server : Int → Option Int → TaskOutcome)
    (rawLimit rawOffset : Option Int) (a1 a2 : List Int) (offE : Int)
    (hexn : server offE (some (pageSizeOf rawLimit)) = .exn) :
    request_looper_async server rawLimit rawOffset (a1 ++ offE :: a2)
      = request_looper_async server rawLimit rawOffset a1 :=
  looper_exn_stop server rawLimit rawOffset a1 a2 offE hexn

/-- C3 witness: the failing scenario server, with offset 100 completing
before the raising task at offset 200 and offset 300 still pending. -/
theorem c3_amended_witness :
    serverC3 200 (some (pageSizeOf Option.none)) = TaskOutcome.exn ∧
    request_looper_async serverC3 Option.none Option.none ([100] ++ 200 :: [300])
      = request_looper_async serverC3 Option.none Option.none [100] :=
  ⟨by decide,
   c3_amended serverC3 Option.none Option.none [100] [300] 200 (by decide)⟩

/-- C4 counterexample: with no caller limit, a misbehaving server whose
first page returns 2 items while reporting total 1 yields a merged
envelope with 2 items and `page.total = 1`, so the item count exceeds
`page.total`. -/
theorem c4_counterexample :
    (resultItems (request_looper_async overfullServer Option.none Option.none [])).length
      = 2 ∧
    pageTotalOf (request_looper_async overfullServer Option.none Option.none [])
      = some 1 ∧
    ¬ ((2 : Int) ≤ 1) := by
  refine ⟨by decide, by decide, by decide⟩

/-- C4 (amended): the merged item count never exceeds a non-negative
caller-supplied limit, over all servers, arrival orders and offsets; and
against the well-behaved server (non-negative offset, fan-out arrivals a
permutation of the dispatched offsets) it also never exceeds the returned
`page.total`, which is the server total observed on the first page.  The
`page.total` bound does not hold for arbitrary misbehaving servers. -/
theorem c4_amended :
    (∀ (server : Int → Option Int → TaskOutcome) (rawOffset : Option Int)
        (arrival : List Int) (L : Int), 0 ≤ L →
      ((resultItems (request_looper_async server (some L) rawOffset arrival)).length : Int)
        ≤ L) ∧
    (∀ (T : Nat) (rawLimit : Option Int) (o0 : Int), 0 ≤ o0 →
      ∀ (arrival : List Int), arrival.Perm (wbExtraOffsets T rawLimit o0) →
        ((resultItems (request_looper_async (wellBehaved T) rawLimit (some o0) arrival)).length : Int)
            ≤ (T : Int) ∧
          pageTotalOf (request_looper_async (wellBehaved T) rawLimit (some o0) arrival)
            = some (T : Int)) :=
  ⟨fun server rawOffset arrival L h0 => looper_limit_le server rawOffset arrival L h0,
   fun T rawLimit o0 h0 arrival hperm => looper_wb_le_total T rawLimit o0 h0 arrival hperm⟩

/-- C4 witness: the limit bound applied to the misbehaving server with
limit 3, and the total bound applied to the well-behaved 250-item
server. -/
theorem c4_amended_witness :
    (0 ≤ (3 : Int) ∧
      ((resultItems (request_looper_async overfullServer (some 3) Option.none [])).length : Int)
        ≤ 3) ∧
    (0 ≤ (0 : Int) ∧
      ((resultItems (request_looper_async (wellBehaved 250) Option.none (some 0)
          (wbExtraOffsets 250 Option.none 0))).length : Int) ≤ ((250 : Nat) : Int) ∧
        pageTotalOf (request_looper_async (wellBehaved 250) Option.none (some 0)
          (wbExtraOffsets 250 Option.none 0)) = some ((250 : Nat) : Int)) :=
  ⟨⟨by decide, c4_amended.1 overfullServer Option.none [] 3 (by decide)⟩,
   ⟨by decide, c4_amended.2 250 Option.none 0 (by decide)
      (wbExtraOffsets 250 Option.none 0) (List.Perm.refl _)⟩⟩

/-- C5 counterexample: against the well-behaved 250-item server with no
caller limit, the fan-out dispatches a page request at offset 200 with
limit parameter 100, although only 250 - 200 = 50 items remain before the
effective total. -/
theorem c5_counterexample :
    ((200 : Int), (100 : Int)) ∈ fanoutRequests (wellBehaved 250) Option.none Option.none ∧
    ¬ ((100 : Int) ≤ 250 - 200) := by
  refine ⟨by decide, by decide⟩

/-- C5 (amended): every fan-out page request carries exactly the page
size as its limit query parameter, regardless of how many items remain
before the effective total. -/
theorem c5_amended (server : Int → Option Int → TaskOutcome)
    (rawLimit rawOffset : Option Int) (p : Int × Int)
    (hp : p ∈ fanoutRequests server rawLimit rawOffset) :
    p.2 = pageSizeOf rawLimit := by
  unfold fanoutRequests at hp
  revert hp
  cases hs : server (max (rawOffset.getD 0) 0) (normLimitParam rawLimit) with
  | exn => intro hp; simp at hp
  | ok r =>
    cases r with
    | none => intro hp; simp at hp
    | noItems => intro hp; simp at hp
    | page items0 firstPageOpt =>
      intro hp
      dsimp only at hp
      split at hp
      · simp at hp
      · obtain ⟨off, _, rfl⟩ := List.mem_map.mp hp
        rfl

/-- C5 witness: the dispatched request at offset 100 of the 250-item
scenario carries the default page size 100 as its limit. -/
theorem c5_amended_witness :
    ((100 : Int), (100 : Int)) ∈ fanoutRequests (wellBehaved 250) Option.none Option.none ∧
    ((100 : Int), (100 : Int)).2 = pageSizeOf Option.none :=
  ⟨by decide,
   c5_amended (wellBehaved 250) Option.none Option.none (100, 100) (by decide)⟩

/-- C6: a 404 response resolves the call immediately — no retry attempt
is consumed, whatever the attempt counter and however many responses
would follow: the Executor raises the not-found failure exactly when
WARNING reaches the exception threshold, and otherwise returns `None`
without raising (in particular, with a threshold strictly above WARNING
the call returns without raising). -/
theorem c6_not_found (cfg : ExecConfig) (attempts attempt : Nat)
    (message : String) (reset : Option Nat) (body : Option String)
    (rest : List Resp) :
    requestLoop cfg attempts (Resp.http 404 message reset body :: rest) attempt =
      (if cfg.exceptionLogLevel ≤ loggingWARNING
        then (Outcome.raised RaisedKind.notFound, [])
        else (Outcome.value Option.none, [])) := by
  simp only [requestLoop]
  norm_num

/-- C7 counterexample: a 429 rate-limit response without the
`x-ratelimit-reset` header makes the Executor sleep 1 second (the absent
header defaulting to 0, plus 1), not the configured fallback retry delay
of 10 seconds. -/
theorem c7_counterexample :
    (requestLoop ⟨2, 10, 40⟩ 3
      [Resp.http 429 "API quota: maximum request count reached" Option.none Option.none,
       Resp.http 200 "" Option.none (some "ok")] 1).2 = [1] ∧
    ({ maxRetries := 2, retryDelay := 10, exceptionLogLevel := 40 } : ExecConfig).retryDelay
      = 10 ∧
    ([1] : List Nat) ≠ [10] := by
  refine ⟨by decide, rfl, by decide⟩

/-- C7 (amended): on a 429 response whose message contains "maximum
request count", with attempts remaining the Executor sleeps for the
reset-hint header value plus 1 second when the header is present and for
1 second (the absent header defaulting to 0, plus 1 — not the configured
retry delay) when it is absent, consumes one attempt and retries; with
the budget exhausted it reaches the final block, which raises exactly
when ERROR reaches the exception threshold. -/
theorem c7_amended (cfg : ExecConfig) (attempts attempt : Nat)
    (message : String) (reset : Option Nat) (body : Option String)
    (rest : List Resp)
    (hmsg : containsSub message rateLimitMarker = true) :
    (attempt < attempts →
      requestLoop cfg attempts (Resp.http 429 message reset body :: rest) attempt =
        ((requestLoop cfg attempts rest (attempt + 1)).1,
          (reset.getD 0 + 1) :: (requestLoop cfg attempts rest (attempt + 1)).2)) ∧
    (attempts ≤ attempt →
      requestLoop cfg attempts (Resp.http 429 message reset body :: rest) attempt =
        (finalOutcome cfg, [])) := by
  constructor
  · intro h
    simp only [requestLoop]
    rw [if_neg (by decide : ¬ ((429 : Nat) = 200)),
      if_neg (by decide : ¬ ((429 : Nat) = 404)),
      if_neg (by decide : ¬ ((429 : Nat) = 502 ∨ (429 : Nat) = 503 ∨ (429 : Nat) = 504)),
      if_pos (show True ∨ (429 : Nat) = 403 ∨ (429 : Nat) = 401 from Or.inl trivial),
      if_pos (show True ∧ containsSub message rateLimitMarker = true from ⟨trivial, hmsg⟩),
      if_neg (by omega : ¬ attempts ≤ attempt)]
  · intro h
    simp only [requestLoop]
    rw [if_neg (by decide : ¬ ((429 : Nat) = 200)),
      if_neg (by decide : ¬ ((429 : Nat) = 404)),
      if_neg (by decide : ¬ ((429 : Nat) = 502 ∨ (429 : Nat) = 503 ∨ (429 : Nat) = 504)),
      if_pos (show True ∨ (429 : Nat) = 403 ∨ (429 : Nat) = 401 from Or.inl trivial),
      if_pos (show True ∧ containsSub message rateLimitMarker = true from ⟨trivial, hmsg⟩),
      if_pos h]

/-- C7 witness: one rate-limited response without reset header followed
by a success, within a budget of 2 retries: the call sleeps 1 second,
retries, and returns the body. -/
theorem c7_amended_witness :
    containsSub "maximum request count" rateLimitMarker = true ∧
    requestLoop ⟨2, 10, 40⟩ 3
      [Resp.http 429 "maximum request count" Option.none Option.none,
       Resp.http 200 "" Option.none (some "ok")] 1
      = (Outcome.value (some "ok"), [1]) := by
  refine ⟨by decide, ?_⟩
  rw [(c7_amended ⟨2, 10, 40⟩ 3 1 "maximum request count" Option.none Option.none
    [Resp.http 200 "" Option.none (some "ok")] (by decide)).1 (by omega)]
  decide

/-- C8: evaluation at the failing input — a parameter whose value is the
boolean `false` is dropped from the transmitted parameters entirely
instead of being sent as the string "false"; the stringification branch
for `false` is unreachable because the falsy filter runs first, while
`true` is stringified as documented. -/
theorem c8_false_param_dropped :
    filterParams [("flag", PValue.bool false)] = [] ∧
    filterParams [("flag", PValue.bool true)] = [("flag", PValue.str "true")] := by
  refine ⟨by decide, by decide⟩

/-- C9 counterexample: an explicit method override to GET or POST is
rejected as a configuration error rather than accepted. -/
theorem c9_counterexample :
    methodName (some "GET") false = MethodChoice.configError ∧
    methodName (some "POST") true = MethodChoice.configError := by
  refine ⟨by decide, by decide⟩

/-- C9 (amended): an explicit method override is accepted exactly when it
lowercases to "delete" (yielding DELETE); GET and POST are only ever
chosen automatically — POST when a body is present, else GET. -/
theorem c9_amended (m : String) (hasBody : Bool) :
    (methodName (some m) hasBody ≠ MethodChoice.configError ↔ pyLower m = "delete") ∧
    methodName Option.none hasBody
      = MethodChoice.name (if hasBody then "POST" else "GET") ∧
    (pyLower m = "delete" → methodName (some m) hasBody = MethodChoice.name "DELETE") := by
  refine ⟨?_, rfl, fun h => ?_⟩
  · simp only [methodName]
    by_cases h : pyLower m = "delete"
    · rw [if_pos h]
      simp [h]
    · rw [if_neg h]
      simp [h]
  · simp only [methodName]
    rw [if_pos h]

/-- C9 witness: the override "Delete" (any case) is accepted as DELETE. -/
theorem c9_amended_witness :
    (methodName (some "Delete") true ≠ MethodChoice.configError ↔
      pyLower "Delete" = "delete") ∧
    methodName Option.none true = MethodChoice.name (if true then "POST" else "GET") ∧
    (pyLower "Delete" = "delete" → methodName (some "Delete") true
      = MethodChoice.name "DELETE") :=
  c9_amended "Delete" true

/-- C10: the Executor omits from the transmitted parameters every
parameter whose value is falsy, wherever it appears in the parameter
list; and `0`, `false`, the empty string, the empty list and null are all
falsy, so an explicit `offset=0` or `limit=0` is never sent. -/
theorem c10_falsy_params_dropped :
    (∀ (pre post : List (String × PValue)) (k : String) (v : PValue),
      pyFalsy v = true →
      filterParams (pre ++ (k, v) :: post) = filterParams (pre ++ post)) ∧
    pyFalsy (PValue.int 0) = true ∧ pyFalsy (PValue.bool false) = true ∧
    pyFalsy (PValue.str "") = true ∧ pyFalsy (PValue.list []) = true ∧
    pyFalsy PValue.null = true := by
  refine ⟨?_, by decide, by decide, by decide, by decide, by decide⟩
  intro pre post k v hv
  induction pre with
  | nil =>
    simp only [List.nil_append, filterParams, hv, if_pos]
  | cons kv rest ih =>
    cases kv with
    | mk k1 v1 =>
      simp only [List.cons_append, filterParams, List.append_eq]
      rw [ih]

/-- C10 witness: an explicit `offset=0` parameter is dropped from the
transmitted parameter list. -/
theorem c10_witness :
    pyFalsy (PValue.int 0) = true ∧
    filterParams [("a", PValue.int 1), ("offset", PValue.int 0)]
      = filterParams [("a", PValue.int 1)] :=
  ⟨by decide,
   c10_falsy_params_dropped.1 [("a", PValue.int 1)] [] "offset" (PValue.int 0)
     (by decide)⟩
